import Mathlib

/-!
Verification of the shared generator utilities (`generators/base.py`) of the
pixel-figma-mcp repository: a shallow embedding of the color-conversion
helpers, the Figma-node parsers, and the cross-module constants, together
with proofs of the specification's claims about them.

Conventions of the embedding:
* JSON numbers are modelled as rationals (`ℚ`); the source manipulates them
  with exact decimal literals only, so rational arithmetic is faithful.
* A Python dict that may lack keys is modelled as a structure of `Option`
  fields; `dict.get(k, d)` becomes `Option.getD`.
* Python functions that can raise (`int(...)` on malformed text, list
  indexing out of range) are modelled with `Option`: `none` is a raised
  error, `some` a normal return.
* All recursion is structural (fuel-based where the source loops by
  repeated dropping), so every definition evaluates by kernel reduction.
-/

/- --------------------------------------------------------------------------
Constants (generators/base.py) and the values asserted by the test suite
(tests/test_generators.py).
-------------------------------------------------------------------------- -/

/-- `MAX_CHILDREN_LIMIT = 20` — React/Vue/CSS child limit per container. -/
def MAX_CHILDREN_LIMIT : ℕ := 20

/-- `MAX_NATIVE_CHILDREN_LIMIT = 10` — SwiftUI/Kotlin child limit, as the
source literally defines it. -/
def MAX_NATIVE_CHILDREN_LIMIT : ℕ := 10

/-- `MAX_DEPTH = 8` — maximum recursive depth. -/
def MAX_DEPTH : ℕ := 8

/-- The value `test_web_child_limit_is_20` asserts for the web constant. -/
def testExpectedWebLimit : ℕ := 20

/-- The value `test_native_child_limit_is_15` asserts for the native
constant. -/
def testExpectedNativeLimit : ℕ := 15

/- --------------------------------------------------------------------------
Numeric rendering helpers shared by the Python f-strings.
-------------------------------------------------------------------------- -/

/-- Python `int(x)` on a float/rational: truncation toward zero. -/
def pyTrunc (q : ℚ) : ℤ := if 0 ≤ q then ⌊q⌋ else -⌊-q⌋

/-- Round to the nearest integer, ties to even — the rounding used by IEEE
arithmetic and hence by CPython's float formatting on tie values. -/
def roundHalfEven (q : ℚ) : ℤ :=
  if q - ⌊q⌋ = 1 / 2 then (if 2 ∣ ⌊q⌋ then ⌊q⌋ else ⌊q⌋ + 1) else round q

/-- Lower-case hexadecimal digit for `n < 16` (as printed by `%x`). -/
def hexDigitChar (n : ℕ) : Char :=
  if n < 10 then Char.ofNat (48 + n) else Char.ofNat (87 + n)

/-- Decimal digit character for `n < 10`. -/
def decDigitChar (n : ℕ) : Char := Char.ofNat (48 + n)

/-- Hexadecimal digits of `n`, most significant first; fuel-based so that it
is structurally recursive (fuel `n + 1` always suffices). -/
def natToHexAux : ℕ → ℕ → List Char
  | 0, _ => []
  | fuel + 1, n =>
    if n < 16 then [hexDigitChar n]
    else natToHexAux fuel (n / 16) ++ [hexDigitChar (n % 16)]

/-- Hexadecimal rendering of a natural number (`%x`). -/
def natToHex (n : ℕ) : List Char := natToHexAux (n + 1) n

/-- Decimal digits of `n`, most significant first (fuel-based). -/
def natToDecAux : ℕ → ℕ → List Char
  | 0, _ => []
  | fuel + 1, n =>
    if n < 10 then [decDigitChar n]
    else natToDecAux fuel (n / 10) ++ [decDigitChar (n % 10)]

/-- Decimal rendering of a natural number. -/
def natToDec (n : ℕ) : List Char := natToDecAux (n + 1) n

/-- Decimal rendering of an integer, as Python's `str`/f-string prints it. -/
def intToDec (i : ℤ) : List Char :=
  if i < 0 then '-' :: natToDec i.natAbs else natToDec i.natAbs

/-- Left-pad with `'0'` to width `w` (the padding part of `%02x`). -/
def padZeros (w : ℕ) (l : List Char) : List Char :=
  List.replicate (w - l.length) '0' ++ l

/-- Python `f"{i:02x}"`: two-wide zero-padded lower-case hex; a negative
value keeps its sign and the width counts the sign character. -/
def pyFormatHex2 (i : ℤ) : List Char :=
  if i < 0 then '-' :: padZeros 1 (natToHex i.natAbs)
  else padZeros 2 (natToHex i.natAbs)

/-- Python `f"{q:.2f}"`: fixed-point with exactly two decimals, rounding
ties to even.  (Models CPython float formatting; exact on the decimal
fractions the source handles, and sign-of-negative-zero is not modelled.) -/
def pyFormatF2 (q : ℚ) : List Char :=
  let c := roundHalfEven (q * 100)
  let sign := if c < 0 then ['-'] else ([] : List Char)
  let m := c.natAbs
  sign ++ natToDec (m / 100) ++ '.' :: padZeros 2 (natToDec (m % 100))

/- --------------------------------------------------------------------------
Color model: raw Figma color records and the `ColorValue` dataclass.
-------------------------------------------------------------------------- -/

/-- A raw Figma color record `{r, g, b, a}`; every key may be absent. -/
structure FigmaColor where
  r : Option ℚ := none
  g : Option ℚ := none
  b : Option ℚ := none
  a : Option ℚ := none
deriving DecidableEq

/-- `ColorValue` — framework-agnostic color, channels in the 0–1 range. -/
structure ColorValue where
  r : ℚ
  g : ℚ
  b : ℚ
  a : ℚ := 1
deriving DecidableEq

/-- `ColorValue.hex`: `#rrggbb` when `a ≥ 1`, else `rgba(r, g, b, a)` with
alpha printed to two decimals; channels are `int(ch * 255)`. -/
def ColorValue.hex (c : ColorValue) : String :=
  let ri := pyTrunc (c.r * 255)
  let gi := pyTrunc (c.g * 255)
  let bi := pyTrunc (c.b * 255)
  if c.a < 1 then
    String.mk ("rgba(".data ++ intToDec ri ++ ", ".data ++ intToDec gi ++
      ", ".data ++ intToDec bi ++ ", ".data ++ pyFormatF2 c.a ++ ")".data)
  else
    String.mk ('#' :: (pyFormatHex2 ri ++ pyFormatHex2 gi ++ pyFormatHex2 bi))

/-- `ColorValue.rgb_ints`: the `(int(r*255), int(g*255), int(b*255))`
triple. -/
def ColorValue.rgb_ints (c : ColorValue) : ℤ × ℤ × ℤ :=
  (pyTrunc (c.r * 255), pyTrunc (c.g * 255), pyTrunc (c.b * 255))

/-- `ColorValue.from_figma(color, opacity)`: channels default to 0; the
alpha is `opacity` when `opacity < 1`, else the record's `a` (default 1). -/
def ColorValue.from_figma (color : FigmaColor) (opacity : ℚ) : ColorValue :=
  { r := color.r.getD 0, g := color.g.getD 0, b := color.b.getD 0,
    a := if opacity < 1 then opacity else color.a.getD 1 }

/-- `rgba_to_hex(color)`: same rendering rule as `ColorValue.hex`, applied
directly to a raw color record (missing channels default to 0, missing
alpha to 1). -/
def rgba_to_hex (color : FigmaColor) : String :=
  let r := pyTrunc (color.r.getD 0 * 255)
  let g := pyTrunc (color.g.getD 0 * 255)
  let b := pyTrunc (color.b.getD 0 * 255)
  let a := color.a.getD 1
  if a < 1 then
    String.mk ("rgba(".data ++ intToDec r ++ ", ".data ++ intToDec g ++
      ", ".data ++ intToDec b ++ ", ".data ++ pyFormatF2 a ++ ")".data)
  else
    String.mk ('#' :: (pyFormatHex2 r ++ pyFormatHex2 g ++ pyFormatHex2 b))

/- --------------------------------------------------------------------------
String helpers modelling the Python `str` methods used by `hex_to_rgb`.
-------------------------------------------------------------------------- -/

/-- ASCII whitespace as recognised by Python's `str.strip()`. -/
def isPySpace (c : Char) : Bool :=
  c == ' ' || c == '\t' || c == '\n' || c == '\r' || c == '\x0b' || c == '\x0c'

/-- Python `s.strip()`: drop whitespace from both ends. -/
def pyStrip (l : List Char) : List Char :=
  ((l.dropWhile isPySpace).reverse.dropWhile isPySpace).reverse

/-- One step of `str.replace(pat, "")`, fuel-based: drop every occurrence of
`pat`.  Fuel `l.length` suffices since each step consumes at least one
character. -/
def removeAllAux (pat : List Char) : ℕ → List Char → List Char
  | 0, l => l
  | _ + 1, [] => []
  | fuel + 1, c :: cs =>
    if pat ≠ [] ∧ pat.isPrefixOf (c :: cs) then
      removeAllAux pat fuel (List.drop pat.length (c :: cs))
    else c :: removeAllAux pat fuel cs

/-- Python `s.replace(pat, "")` for a non-empty pattern. -/
def removeAll (pat l : List Char) : List Char := removeAllAux pat l.length l

/-- Value of a hexadecimal digit character, if it is one. -/
def hexDigitVal? (c : Char) : Option ℕ :=
  if '0' ≤ c ∧ c ≤ '9' then some (c.toNat - 48)
  else if 'a' ≤ c ∧ c ≤ 'f' then some (c.toNat - 87)
  else if 'A' ≤ c ∧ c ≤ 'F' then some (c.toNat - 55)
  else none

/-- Value of a decimal digit character, if it is one. -/
def decDigitVal? (c : Char) : Option ℕ :=
  if '0' ≤ c ∧ c ≤ '9' then some (c.toNat - 48) else none

/-- Read a non-empty all-hex-digit string as a number. -/
def hexDigitsVal? (l : List Char) : Option ℕ :=
  if l = [] then none
  else l.foldl (fun acc c => acc.bind fun n => (hexDigitVal? c).map fun v => 16 * n + v) (some 0)

/-- Read a non-empty all-decimal-digit string as a number. -/
def decDigitsVal? (l : List Char) : Option ℕ :=
  if l = [] then none
  else l.foldl (fun acc c => acc.bind fun n => (decDigitVal? c).map fun v => 10 * n + v) (some 0)

/-- Python `int(text)` / `int(text, 16)` on the digit classes the source
feeds it: surrounding whitespace and an optional sign, then digits; any
other shape raises `ValueError`, modelled as `none`. -/
def pyIntOfDigits (digitsVal : List Char → Option ℕ) (s : List Char) : Option ℤ :=
  let t := pyStrip s
  if t.head? = some '+' then (digitsVal t.tail).map Int.ofNat
  else if t.head? = some '-' then (digitsVal t.tail).map fun n => -(n : ℤ)
  else (digitsVal t).map Int.ofNat

/-- Python `int(text)` (base 10). -/
def pyIntDec (s : List Char) : Option ℤ := pyIntOfDigits decDigitsVal? s

/-- Python `int(text, 16)`. -/
def pyIntHex16 (s : List Char) : Option ℤ := pyIntOfDigits hexDigitsVal? s

/-- The hex portion of `hex_to_rgb`'s input after `lstrip('#')` and 3-digit
shorthand expansion. -/
def expandedHexPortion (l : List Char) : List Char :=
  let h := l.dropWhile (fun c => c == '#')
  if h.length = 3 then h.flatMap (fun c => [c, c]) else h

/-- `hex_to_rgb(text)`: accepts `rgba(...)` strings and hex strings;
`none` models a raised `ValueError`/`IndexError`. -/
def hex_to_rgb (s : String) : Option (ℤ × ℤ × ℤ) :=
  let l := pyStrip s.data
  if "rgba".data.isPrefixOf l then
    let cleaned := removeAll ")".data (removeAll "rgba(".data l)
    let parts := cleaned.splitOn ','
    match parts[0]?, parts[1]?, parts[2]? with
    | some p0, some p1, some p2 =>
      match pyIntDec (pyStrip p0), pyIntDec (pyStrip p1), pyIntDec (pyStrip p2) with
      | some x, some y, some z => some (x, y, z)
      | _, _, _ => none
    | _, _, _ => none
  else
    let h := expandedHexPortion l
    if 6 ≤ h.length then
      match pyIntHex16 (h.take 2), pyIntHex16 ((h.drop 2).take 2),
            pyIntHex16 ((h.drop 4).take 2) with
      | some x, some y, some z => some (x, y, z)
      | _, _, _ => none
    else some (0, 0, 0)


/- --------------------------------------------------------------------------
Data model: gradients, fills, strokes, corners, effects, text style.
-------------------------------------------------------------------------- -/

/-- A raw gradient handle-position record `{x, y}`. -/
structure HandlePos where
  x : Option ℚ := none
  y : Option ℚ := none
deriving DecidableEq

/-- A raw gradient-stop record `{color, position}`. -/
structure FigmaGradientStop where
  color : Option FigmaColor := none
  position : Option ℚ := none
deriving DecidableEq

/-- A raw fill/stroke paint record from a Figma node. -/
structure FigmaPaint where
  type : Option String := none
  visible : Option Bool := none
  opacity : Option ℚ := none
  color : Option FigmaColor := none
  gradientStops : Option (List FigmaGradientStop) := none
  gradientHandlePositions : Option (List HandlePos) := none
  imageRef : Option String := none
  scaleMode : Option String := none
deriving DecidableEq

/-- `GradientStop` — a color plus a position in 0–1. -/
structure GradientStop where
  color : ColorValue
  position : ℚ
deriving DecidableEq

/-- `GradientDef` — framework-agnostic gradient definition. -/
structure GradientDef where
  type : String
  stops : List GradientStop
  handle_positions : List HandlePos := []
  opacity : ℚ := 1
deriving DecidableEq

/-- `math.atan2(y, x)` over the reals (full-quadrant arctangent). -/
noncomputable def pyAtan2 (y x : ℝ) : ℝ :=
  if 0 < x then Real.arctan (y / x)
  else if x < 0 then
    (if 0 ≤ y then Real.arctan (y / x) + Real.pi else Real.arctan (y / x) - Real.pi)
  else (if 0 < y then Real.pi / 2 else if y < 0 then -(Real.pi / 2) else 0)

/-- Python's float `%`: `x - y * ⌊x / y⌋` (sign follows the divisor). -/
noncomputable def pyFloatMod (x y : ℝ) : ℝ := x - y * ⌊x / y⌋

/-- `GradientDef.angle_degrees`: the CSS angle from the first two handle
positions, or 180.0 when fewer than two are present.  `end.get` defaults
are 1 and `start.get` defaults are 0, exactly as in the source. -/
noncomputable def GradientDef.angle_degrees (g : GradientDef) : ℝ :=
  if g.handle_positions.length < 2 then 180
  else
    let s := g.handle_positions.getD 0 {}
    let e := g.handle_positions.getD 1 {}
    let dx : ℚ := e.x.getD 1 - s.x.getD 0
    let dy : ℚ := e.y.getD 1 - s.y.getD 0
    let angle : ℝ := pyAtan2 (dy : ℝ) (dx : ℝ) * 180 / Real.pi
    pyFloatMod (90 - angle) 360

/-- `FillLayer` — one fill layer; a node can stack several. -/
structure FillLayer where
  type : String
  color : Option ColorValue := none
  gradient : Option GradientDef := none
  image_ref : Option String := none
  scale_mode : String := "FILL"
  opacity : ℚ := 1
  visible : Bool := true
deriving DecidableEq

/-- A raw `individualStrokeWeights` record. -/
structure IndividualWeights where
  top : Option ℚ := none
  right : Option ℚ := none
  bottom : Option ℚ := none
  left : Option ℚ := none
deriving DecidableEq

/-- The per-edge weight dict `parse_stroke` builds (all four keys present,
each defaulting to 0). -/
structure EdgeWeights where
  top : ℚ
  right : ℚ
  bottom : ℚ
  left : ℚ
deriving DecidableEq

/-- `StrokeInfo` — framework-agnostic stroke definition. -/
structure StrokeInfo where
  weight : ℚ
  colors : List FillLayer
  align : String := "INSIDE"
  cap : String := "NONE"
  join : String := "MITER"
  dashes : List ℚ := []
  individual_weights : Option EdgeWeights := none
deriving DecidableEq

/-- `CornerRadii` — the four corner radius values. -/
structure CornerRadii where
  top_left : ℚ := 0
  top_right : ℚ := 0
  bottom_right : ℚ := 0
  bottom_left : ℚ := 0
deriving DecidableEq

/-- `CornerRadii.is_uniform`: all four corners equal. -/
def CornerRadii.is_uniform (c : CornerRadii) : Bool :=
  decide (c.top_left = c.top_right ∧ c.top_right = c.bottom_right ∧
    c.bottom_right = c.bottom_left)

/-- `CornerRadii.uniform_value`: the `top_left` value. -/
def CornerRadii.uniform_value (c : CornerRadii) : ℚ := c.top_left

/-- `ShadowEffect`. -/
structure ShadowEffect where
  type : String
  color : ColorValue
  offset_x : ℚ := 0
  offset_y : ℚ := 0
  radius : ℚ := 0
  spread : ℚ := 0
deriving DecidableEq

/-- `BlurEffect`. -/
structure BlurEffect where
  type : String
  radius : ℚ := 0
deriving DecidableEq

/-- A raw effect `offset` record `{x, y}`. -/
structure FigmaOffset where
  x : Option ℚ := none
  y : Option ℚ := none
deriving DecidableEq

/-- A raw effect record from a node's `effects` list. -/
structure FigmaEffect where
  type : Option String := none
  visible : Option Bool := none
  color : Option FigmaColor := none
  offset : Option FigmaOffset := none
  radius : Option ℚ := none
  spread : Option ℚ := none
deriving DecidableEq

/-- A raw nested `style` record of a TEXT node. -/
structure FigmaTextStyleRec where
  fontFamily : Option String := none
  fontSize : Option ℚ := none
  fontWeight : Option ℤ := none
  lineHeightPx : Option ℚ := none
  letterSpacing : Option ℚ := none
  textAlignHorizontal : Option String := none
  textCase : Option String := none
  textDecoration : Option String := none
  maxLines : Option ℤ := none
  textTruncation : Option String := none
deriving DecidableEq

/-- `TextStyle` — typography information. -/
structure TextStyle where
  font_family : String := ""
  font_size : ℚ := 16
  font_weight : ℤ := 400
  line_height : Option ℚ := none
  letter_spacing : ℚ := 0
  text_align : String := "LEFT"
  text_case : String := "ORIGINAL"
  text_decoration : String := "NONE"
  color : Option ColorValue := none
  gradient : Option GradientDef := none
  max_lines : Option ℤ := none
  truncation : String := "DISABLED"
deriving DecidableEq

/-- The raw node record: the fields of a Figma document node that the
parsers under verification read. -/
structure FigmaNode where
  fills : Option (List FigmaPaint) := none
  strokes : Option (List FigmaPaint) := none
  strokeWeight : Option ℚ := none
  strokeDashes : Option (List ℚ) := none
  strokeAlign : Option String := none
  strokeCap : Option String := none
  strokeJoin : Option String := none
  individualStrokeWeights : Option IndividualWeights := none
  rectangleCornerRadii : Option (List ℚ) := none
  cornerRadius : Option ℚ := none
  effects : Option (List FigmaEffect) := none
  style : Option FigmaTextStyleRec := none
deriving DecidableEq

/- --------------------------------------------------------------------------
Parsers.
-------------------------------------------------------------------------- -/

/-- Python's `pat in s` substring test. -/
def hasSubstr (pat : List Char) : List Char → Bool
  | [] => pat.isEmpty
  | c :: cs => pat.isPrefixOf (c :: cs) || hasSubstr pat cs

/-- Gradient-stop color: `ColorValue(r=c.get('r',0), ..., a=c.get('a',1))`. -/
def colorOfStopRecord (c : FigmaColor) : ColorValue :=
  { r := c.r.getD 0, g := c.g.getD 0, b := c.b.getD 0, a := c.a.getD 1 }

/-- The gradient-stop list built from a paint's `gradientStops`. -/
def gradientStopsOfPaint (stops : List FigmaGradientStop) : List GradientStop :=
  stops.map fun s =>
    { color := colorOfStopRecord (s.color.getD {}), position := s.position.getD 0 }

/-- The `GradientDef` built from a gradient paint record: type tag with the
`GRADIENT_` prefix removed, stops, handle positions, opacity. -/
def gradientOfPaint (fillType : String) (fill : FigmaPaint) : GradientDef :=
  { type := String.mk (removeAll "GRADIENT_".data fillType.data),
    stops := gradientStopsOfPaint (fill.gradientStops.getD []),
    handle_positions := fill.gradientHandlePositions.getD [],
    opacity := fill.opacity.getD 1 }

/-- The `FillLayer` the `parse_fills` loop body builds for one visible
fill record. -/
def fillLayerOfPaint (fill : FigmaPaint) (visible : Bool) : FillLayer :=
  let fill_type := fill.type.getD ""
  let base : FillLayer :=
    { type := fill_type, visible := visible, opacity := fill.opacity.getD 1 }
  if fill_type = "SOLID" then
    { base with
      color := some (ColorValue.from_figma (fill.color.getD {}) (fill.opacity.getD 1)) }
  else if hasSubstr "GRADIENT".data fill_type.data then
    { base with gradient := some (gradientOfPaint fill_type fill) }
  else if fill_type = "IMAGE" then
    { base with
      image_ref := some (fill.imageRef.getD "")
      scale_mode := fill.scaleMode.getD "FILL" }
  else base

/-- The `parse_fills` loop: skip fills whose `visible` is false, build a
layer for the rest. -/
def parseFillsGo : List FigmaPaint → List FillLayer
  | [] => []
  | fill :: rest =>
    let visible := fill.visible.getD true
    if visible = false then parseFillsGo rest
    else fillLayerOfPaint fill visible :: parseFillsGo rest

/-- `parse_fills(node)`. -/
def parse_fills (node : FigmaNode) : List FillLayer :=
  parseFillsGo (node.fills.getD [])

/-- The `FillLayer` the `parse_stroke` loop body builds for one visible
stroke record (no IMAGE branch; `visible` is literally `True`). -/
def strokeLayerOfPaint (s : FigmaPaint) : FillLayer :=
  let sType := s.type.getD ""
  let base : FillLayer :=
    { type := sType, visible := true, opacity := s.opacity.getD 1 }
  if sType = "SOLID" then
    { base with
      color := some (ColorValue.from_figma (s.color.getD {}) (s.opacity.getD 1)) }
  else if hasSubstr "GRADIENT".data sType.data then
    { base with gradient := some (gradientOfPaint sType s) }
  else base

/-- The `parse_stroke` color loop: keep the visible stroke records. -/
def strokeColorsGo : List FigmaPaint → List FillLayer
  | [] => []
  | s :: rest =>
    if (s.visible.getD true) = false then strokeColorsGo rest
    else strokeLayerOfPaint s :: strokeColorsGo rest

/-- `parse_stroke(node)`.  Python's truthiness test `if iw:` on the
`individualStrokeWeights` dict is modelled as presence of the record. -/
def parse_stroke (node : FigmaNode) : Option StrokeInfo :=
  let strokes := node.strokes.getD []
  let weight := node.strokeWeight.getD 0
  if strokes = [] ∨ weight = 0 then none
  else
    let colors := strokeColorsGo strokes
    if colors = [] then none
    else
      let individual := node.individualStrokeWeights.map fun iw =>
        ({ top := iw.top.getD 0, right := iw.right.getD 0,
           bottom := iw.bottom.getD 0, left := iw.left.getD 0 } : EdgeWeights)
      some { weight := weight, colors := colors,
             align := node.strokeAlign.getD "INSIDE",
             cap := node.strokeCap.getD "NONE",
             join := node.strokeJoin.getD "MITER",
             dashes := node.strokeDashes.getD [],
             individual_weights := individual }

/-- `parse_corners(node)`.  `node.get('rectangleCornerRadii')` being absent
and being an empty list are both falsy, so both are modelled by `getD []`. -/
def parse_corners (node : FigmaNode) : Option CornerRadii :=
  let radii := node.rectangleCornerRadii.getD []
  if radii ≠ [] ∧ radii.length = 4 then
    some { top_left := radii.getD 0 0, top_right := radii.getD 1 0,
           bottom_right := radii.getD 2 0, bottom_left := radii.getD 3 0 }
  else
    let cr := node.cornerRadius.getD 0
    if cr > 0 then
      some { top_left := cr, top_right := cr, bottom_right := cr, bottom_left := cr }
    else none

/-- The `ShadowEffect` built for one visible shadow record (default shadow
alpha 0.25; default offset record `{x: 0, y: 0}`). -/
def shadowOfEffect (eType : String) (e : FigmaEffect) : ShadowEffect :=
  let color := e.color.getD {}
  let offset := e.offset.getD { x := some 0, y := some 0 }
  { type := eType,
    color := { r := color.r.getD 0, g := color.g.getD 0, b := color.b.getD 0,
               a := color.a.getD 0.25 },
    offset_x := offset.x.getD 0, offset_y := offset.y.getD 0,
    radius := e.radius.getD 0, spread := e.spread.getD 0 }

/-- The `BlurEffect` built for one visible blur record. -/
def blurOfEffect (eType : String) (e : FigmaEffect) : BlurEffect :=
  { type := eType, radius := e.radius.getD 0 }

/-- The `parse_effects` loop: classify visible effects into shadows and
blurs, preserving order. -/
def parseEffectsGo : List FigmaEffect → List ShadowEffect × List BlurEffect
  | [] => ([], [])
  | e :: rest =>
    let (ss, bs) := parseEffectsGo rest
    if (e.visible.getD true) = false then (ss, bs)
    else
      let eType := e.type.getD ""
      if eType = "DROP_SHADOW" ∨ eType = "INNER_SHADOW" then
        (shadowOfEffect eType e :: ss, bs)
      else if eType = "LAYER_BLUR" ∨ eType = "BACKGROUND_BLUR" then
        (ss, blurOfEffect eType e :: bs)
      else (ss, bs)

/-- `parse_effects(node)`. -/
def parse_effects (node : FigmaNode) : List ShadowEffect × List BlurEffect :=
  parseEffectsGo (node.effects.getD [])

/-- The text-color scan of `parse_text_style`: first visible SOLID fill
sets the color and stops; first visible gradient fill sets the gradient and
stops; other fills (invisible, IMAGE, unknown) are skipped. -/
def textFillScan : List FigmaPaint → Option ColorValue × Option GradientDef
  | [] => (none, none)
  | fill :: rest =>
    if (fill.visible.getD true) = false then textFillScan rest
    else
      let t := fill.type.getD ""
      if t = "SOLID" then
        (some (ColorValue.from_figma (fill.color.getD {}) (fill.opacity.getD 1)), none)
      else if hasSubstr "GRADIENT".data t.data then
        (none, some (gradientOfPaint t fill))
      else textFillScan rest

/-- `parse_text_style(node)`. -/
def parse_text_style (node : FigmaNode) : TextStyle :=
  let style := node.style.getD {}
  let scan := textFillScan (node.fills.getD [])
  { font_family := style.fontFamily.getD "",
    font_size := style.fontSize.getD 16,
    font_weight := style.fontWeight.getD 400,
    line_height := style.lineHeightPx,
    letter_spacing := style.letterSpacing.getD 0,
    text_align := style.textAlignHorizontal.getD "LEFT",
    text_case := style.textCase.getD "ORIGINAL",
    text_decoration := style.textDecoration.getD "NONE",
    color := scan.1,
    gradient := scan.2,
    max_lines := style.maxLines,
    truncation := style.textTruncation.getD "DISABLED" }


/-- The shadow produced for one effect record, if its type is a shadow
type (specification view of one `parse_effects` branch). -/
def shadowOf? (e : FigmaEffect) : Option ShadowEffect :=
  if e.type.getD "" = "DROP_SHADOW" ∨ e.type.getD "" = "INNER_SHADOW" then
    some (shadowOfEffect (e.type.getD "") e)
  else none

/-- The blur produced for one effect record, if its type is a blur type. -/
def blurOf? (e : FigmaEffect) : Option BlurEffect :=
  if e.type.getD "" = "LAYER_BLUR" ∨ e.type.getD "" = "BACKGROUND_BLUR" then
    some (blurOfEffect (e.type.getD "") e)
  else none

/-- The fills the text-color scan reacts to: visible, and either SOLID or
of a gradient type. -/
def textFillPred (f : FigmaPaint) : Bool :=
  f.visible.getD true &&
    (f.type.getD "" == "SOLID" || hasSubstr "GRADIENT".data (f.type.getD "").data)

/- --------------------------------------------------------------------------
Claim theorems.
-------------------------------------------------------------------------- -/

/-- C1: the web child-count constant equals 20 as the test suite asserts,
but the native child-count constant is defined as 10 in `generators/base.py`
while `test_native_child_limit_is_15` asserts the cross-module contract
value 15 — the code contradicts its own test suite. -/
theorem C1_child_limit_constants :
    MAX_CHILDREN_LIMIT = testExpectedWebLimit ∧
    testExpectedWebLimit = 20 ∧
    testExpectedNativeLimit = 15 ∧
    MAX_NATIVE_CHILDREN_LIMIT = 10 ∧
    MAX_NATIVE_CHILDREN_LIMIT ≠ testExpectedNativeLimit := by
  decide

/-- C2 counterexample: `hex_to_rgb` does not return a triple on every
input — on `"zzzzzz"` the hex portion has six characters but
`int("zz", 16)` raises `ValueError` (modelled as `none`), so the function
raises instead of yielding `(0, 0, 0)`. -/
theorem C2_hex_to_rgb_not_total :
    hex_to_rgb "zzzzzz" = none := by decide

/-- C2 (amended): for any input that is not an `rgba(` string and whose hex
portion, after `#` stripping and 3-digit expansion, has fewer than six
characters, `hex_to_rgb` returns `(0, 0, 0)` without raising; inputs whose
numeric fields fail to parse raise instead. -/
theorem C2_short_input_yields_zero (s : String)
    (h1 : "rgba".data.isPrefixOf (pyStrip s.data) = false)
    (h2 : (expandedHexPortion (pyStrip s.data)).length < 6) :
    hex_to_rgb s = some (0, 0, 0) := by
  unfold hex_to_rgb
  simp only [h1, Bool.false_eq_true, if_false]
  rw [if_neg (by omega)]

/-- C2 witness: the amended guarantee applied to the concrete short input
`"ab"`. -/
theorem C2_short_input_yields_zero_witness :
    "rgba".data.isPrefixOf (pyStrip ("ab" : String).data) = false ∧
    (expandedHexPortion (pyStrip ("ab" : String).data)).length < 6 ∧
    hex_to_rgb "ab" = some (0, 0, 0) :=
  ⟨by decide, by decide, C2_short_input_yields_zero "ab" (by decide) (by decide)⟩

/-- C4: `rgba_to_hex` renders a raw color record by the same rule as
`ColorValue.hex`: `#rrggbb` with 8-bit-scaled channels when the record's
alpha (default 1) is at least 1, an `rgba(r, g, b, a)` string with the
alpha to two decimals when it is below 1; missing channels default to 0.
Includes the spec's concrete examples `{r:1} ↦ #ff0000` and
`{b:1, a:0.5} ↦ rgba(0, 0, 255, 0.50)`. -/
theorem C4_rgba_to_hex_spec :
    (∀ c : FigmaColor,
      rgba_to_hex c =
        ColorValue.hex { r := c.r.getD 0, g := c.g.getD 0, b := c.b.getD 0, a := c.a.getD 1 }) ∧
    (∀ c : FigmaColor, 1 ≤ c.a.getD 1 →
      rgba_to_hex c = String.mk ('#' ::
        (pyFormatHex2 (pyTrunc (c.r.getD 0 * 255)) ++
         pyFormatHex2 (pyTrunc (c.g.getD 0 * 255)) ++
         pyFormatHex2 (pyTrunc (c.b.getD 0 * 255))))) ∧
    (∀ c : FigmaColor, c.a.getD 1 < 1 →
      rgba_to_hex c = String.mk ("rgba(".data ++ intToDec (pyTrunc (c.r.getD 0 * 255)) ++
        ", ".data ++ intToDec (pyTrunc (c.g.getD 0 * 255)) ++
        ", ".data ++ intToDec (pyTrunc (c.b.getD 0 * 255)) ++
        ", ".data ++ pyFormatF2 (c.a.getD 1) ++ ")".data)) ∧
    rgba_to_hex { r := some 1 } = "#ff0000" ∧
    rgba_to_hex { b := some 1, a := some 0.5 } = "rgba(0, 0, 255, 0.50)" := by
  refine ⟨fun c => rfl, fun c h => ?_, fun c h => ?_, ?_, ?_⟩
  · simp only [rgba_to_hex]
    rw [if_neg (not_lt.mpr h)]
  · simp only [rgba_to_hex]
    rw [if_pos h]
  · have h1 : pyTrunc ((1 : ℚ) * 255) = 255 := by norm_num [pyTrunc]
    have h0 : pyTrunc ((0 : ℚ) * 255) = 0 := by norm_num [pyTrunc]
    simp only [rgba_to_hex, Option.getD_some, Option.getD_none, h1, h0]
    rw [if_neg (by norm_num)]
    decide
  · have h1 : pyTrunc ((1 : ℚ) * 255) = 255 := by norm_num [pyTrunc]
    have h0 : pyTrunc ((0 : ℚ) * 255) = 0 := by norm_num [pyTrunc]
    have hr : roundHalfEven ((0.5 : ℚ) * 100) = 50 := by
      norm_num [roundHalfEven, round_eq]
    simp only [rgba_to_hex, Option.getD_some, Option.getD_none, h1, h0]
    rw [if_pos (by norm_num)]
    simp only [pyFormatF2, hr]
    decide

/-- C4 witness: the opaque branch applied to the concrete record `{r: 1}`. -/
theorem C4_rgba_to_hex_spec_witness :
    (1 : ℚ) ≤ (({ r := some 1 } : FigmaColor).a.getD 1) ∧
    rgba_to_hex { r := some 1 } = String.mk ('#' ::
      (pyFormatHex2 (pyTrunc ((({ r := some 1 } : FigmaColor).r.getD 0) * 255)) ++
       pyFormatHex2 (pyTrunc ((({ r := some 1 } : FigmaColor).g.getD 0) * 255)) ++
       pyFormatHex2 (pyTrunc ((({ r := some 1 } : FigmaColor).b.getD 0) * 255)))) :=
  ⟨by norm_num, C4_rgba_to_hex_spec.2.1 { r := some 1 } (by norm_num)⟩

/-- C10: the 8-bit channels of `rgb_ints`, `hex` and `rgba_to_hex` are all
`int(channel * 255)` — truncation toward zero (equal to the floor on
non-negative input), not rounding to nearest: a channel of 0.999 renders as
254 (`fe`), while rounding would give 255. -/
theorem C10_int_truncation :
    (∀ c : ColorValue,
      c.rgb_ints = (pyTrunc (c.r * 255), pyTrunc (c.g * 255), pyTrunc (c.b * 255))) ∧
    (∀ q : ℚ, 0 ≤ q → pyTrunc q = ⌊q⌋) ∧
    (∀ c : ColorValue, 1 ≤ c.a →
      c.hex = String.mk ('#' :: (pyFormatHex2 c.rgb_ints.1 ++
        pyFormatHex2 c.rgb_ints.2.1 ++ pyFormatHex2 c.rgb_ints.2.2))) ∧
    (∀ c : ColorValue, c.a < 1 →
      c.hex = String.mk ("rgba(".data ++ intToDec c.rgb_ints.1 ++ ", ".data ++
        intToDec c.rgb_ints.2.1 ++ ", ".data ++ intToDec c.rgb_ints.2.2 ++
        ", ".data ++ pyFormatF2 c.a ++ ")".data)) ∧
    ({ r := 0.999, g := 0.999, b := 0.999 } : ColorValue).rgb_ints = (254, 254, 254) ∧
    round ((0.999 : ℚ) * 255) = 255 ∧
    ({ r := 0.999, g := 0, b := 0 } : ColorValue).hex = "#fe0000" ∧
    rgba_to_hex { r := some 0.999 } = "#fe0000" := by
  have h999 : pyTrunc ((0.999 : ℚ) * 255) = 254 := by norm_num [pyTrunc]
  have h0 : pyTrunc ((0 : ℚ) * 255) = 0 := by norm_num [pyTrunc]
  refine ⟨fun c => rfl, fun q h => by simp [pyTrunc, h], fun c h => ?_, fun c h => ?_,
    ?_, ?_, ?_, ?_⟩
  · simp only [ColorValue.hex, ColorValue.rgb_ints]
    rw [if_neg (not_lt.mpr h)]
  · simp only [ColorValue.hex, ColorValue.rgb_ints]
    rw [if_pos h]
  · simp only [ColorValue.rgb_ints, h999]
  · norm_num [round_eq]
  · simp only [ColorValue.hex, h999, h0]
    rw [if_neg (by norm_num)]
    decide
  · simp only [rgba_to_hex, Option.getD_some, Option.getD_none, h999, h0]
    rw [if_neg (by norm_num)]
    decide

/-- C10 witness: the truncation-equals-floor clause at the concrete
non-negative input `254.745`, and the opaque hex clause at a concrete
color. -/
theorem C10_int_truncation_witness :
    (0 : ℚ) ≤ (0.999 : ℚ) * 255 ∧ pyTrunc ((0.999 : ℚ) * 255) = ⌊(0.999 : ℚ) * 255⌋ :=
  ⟨by norm_num, C10_int_truncation.2.1 ((0.999 : ℚ) * 255) (by norm_num)⟩

/-- The stroke-color loop returns an empty list exactly when every stroke
record is explicitly invisible. -/
theorem strokeColorsGo_eq_nil_iff (l : List FigmaPaint) :
    strokeColorsGo l = [] ↔ ∀ s ∈ l, s.visible.getD true = false := by
  induction l with
  | nil => simp [strokeColorsGo]
  | cons s rest ih =>
    simp only [strokeColorsGo]
    split
    · next h =>
      rw [ih]
      constructor
      · intro hall t ht
        rcases List.mem_cons.mp ht with rfl | ht
        · exact h
        · exact hall t ht
      · intro hall t ht
        exact hall t (List.mem_cons_of_mem _ ht)
    · next h =>
      constructor
      · intro hc
        exact absurd hc (List.cons_ne_nil _ _)
      · intro hall
        exact absurd (hall s (List.mem_cons_self _ _)) h

/-- C5: `parse_stroke` returns `none` exactly when the strokes list is
empty, the stroke weight (default 0) is exactly 0, or every stroke entry is
explicitly invisible; and a returned `StrokeInfo` always carries a
non-empty color-layer list. -/
theorem C5_parse_stroke_spec :
    (∀ node : FigmaNode,
      parse_stroke node = none ↔
        node.strokes.getD [] = [] ∨ node.strokeWeight.getD 0 = 0 ∨
          ∀ s ∈ node.strokes.getD [], s.visible.getD true = false) ∧
    (∀ (node : FigmaNode) (si : StrokeInfo), parse_stroke node = some si →
      si.colors ≠ []) := by
  constructor
  · intro node
    simp only [parse_stroke]
    by_cases h : node.strokes.getD [] = [] ∨ node.strokeWeight.getD 0 = 0
    · rw [if_pos h]
      exact iff_of_true rfl (by tauto)
    · rw [if_neg h]
      by_cases hc : strokeColorsGo (node.strokes.getD []) = []
      · rw [if_pos hc]
        exact iff_of_true rfl (Or.inr (Or.inr ((strokeColorsGo_eq_nil_iff _).mp hc)))
      · rw [if_neg hc]
        apply iff_of_false
        · simp
        · push_neg at h
          intro hor
          rcases hor with h1 | h2 | h3
          · exact h.1 h1
          · exact h.2 h2
          · exact hc ((strokeColorsGo_eq_nil_iff _).mpr h3)
  · intro node si h
    simp only [parse_stroke] at h
    by_cases h1 : node.strokes.getD [] = [] ∨ node.strokeWeight.getD 0 = 0
    · rw [if_pos h1] at h
      exact absurd h (by simp)
    · rw [if_neg h1] at h
      by_cases hc : strokeColorsGo (node.strokes.getD []) = []
      · rw [if_pos hc] at h
        exact absurd h (by simp)
      · rw [if_neg hc] at h
        simp only [Option.some.injEq] at h
        subst h
        intro hnil
        exact hc (by simpa using hnil)

/-- C5 witness: a node with one visible solid stroke and weight 2 yields a
`StrokeInfo` whose color list is non-empty. -/
theorem C5_parse_stroke_spec_witness :
    ({ weight := 2,
       colors := [{ type := "SOLID", color := some { r := 0, g := 0, b := 0 } }] } :
        StrokeInfo).colors ≠ [] :=
  C5_parse_stroke_spec.2
    { strokes := some [{ type := some "SOLID" }], strokeWeight := some 2 } _ (by decide)

/-- C6: `parse_corners` prefers a 4-element `rectangleCornerRadii` array
over `cornerRadius`, mapping its elements in order to top-left, top-right,
bottom-right, bottom-left; without such an array a positive `cornerRadius`
gives a uniform radius, and otherwise the result is absent. -/
theorem C6_parse_corners_spec :
    (∀ (node : FigmaNode) (a b c d cr : ℚ),
      node.rectangleCornerRadii = some [a, b, c, d] → node.cornerRadius = some cr →
      parse_corners node =
        some { top_left := a, top_right := b, bottom_right := c, bottom_left := d }) ∧
    (∀ node : FigmaNode, (node.rectangleCornerRadii.getD []).length ≠ 4 →
      0 < node.cornerRadius.getD 0 →
      parse_corners node = some
        { top_left := node.cornerRadius.getD 0
          top_right := node.cornerRadius.getD 0
          bottom_right := node.cornerRadius.getD 0
          bottom_left := node.cornerRadius.getD 0 }) ∧
    (∀ node : FigmaNode, (node.rectangleCornerRadii.getD []).length ≠ 4 →
      node.cornerRadius.getD 0 ≤ 0 → parse_corners node = none) := by
  refine ⟨fun node a b c d cr h1 _h2 => ?_, fun node h1 h2 => ?_, fun node h1 h2 => ?_⟩
  · simp only [parse_corners, h1, Option.getD_some]
    rw [if_pos ⟨by simp, by simp⟩]
    rfl
  · simp only [parse_corners]
    rw [if_neg (by tauto), if_pos h2]
  · simp only [parse_corners]
    rw [if_neg (by tauto), if_neg (not_lt.mpr h2)]

/-- C6 witness: with both `rectangleCornerRadii = [1,2,3,4]` and
`cornerRadius = 9` present, the array wins, in order. -/
theorem C6_parse_corners_spec_witness :
    parse_corners { rectangleCornerRadii := some [1, 2, 3, 4], cornerRadius := some 9 } =
      some { top_left := 1, top_right := 2, bottom_right := 3, bottom_left := 4 } :=
  C6_parse_corners_spec.1 _ 1 2 3 4 9 rfl rfl

/-- The `parse_fills` loop is filter-then-map: invisible entries are
dropped, each survivor becomes its layer. -/
theorem parseFillsGo_eq_filter_map (l : List FigmaPaint) :
    parseFillsGo l =
      (l.filter fun f => f.visible.getD true).map fun f => fillLayerOfPaint f true := by
  induction l with
  | nil => rfl
  | cons f rest ih =>
    simp only [parseFillsGo, List.filter_cons]
    by_cases h : f.visible.getD true = false
    · simp [h, ih]
    · have h' : f.visible.getD true = true := by
        cases hv : f.visible.getD true
        · exact absurd hv h
        · rfl
      simp [h', ih]

/-- The `parse_stroke` color loop is filter-then-map. -/
theorem strokeColorsGo_eq_filter_map (l : List FigmaPaint) :
    strokeColorsGo l =
      (l.filter fun s => s.visible.getD true).map strokeLayerOfPaint := by
  induction l with
  | nil => rfl
  | cons s rest ih =>
    simp only [strokeColorsGo, List.filter_cons]
    by_cases h : s.visible.getD true = false
    · simp [h, ih]
    · have h' : s.visible.getD true = true := by
        cases hv : s.visible.getD true
        · exact absurd hv h
        · rfl
      simp [h', ih]

/-- A built fill layer carries exactly the visibility it was given. -/
theorem fillLayerOfPaint_visible (f : FigmaPaint) (v : Bool) :
    (fillLayerOfPaint f v).visible = v := by
  simp only [fillLayerOfPaint]
  split_ifs <;> rfl

/-- The `parse_effects` loop classifies the visible effects into shadows
and blurs, in order. -/
theorem parseEffectsGo_eq_filter (l : List FigmaEffect) :
    parseEffectsGo l =
      ((l.filter fun e => e.visible.getD true).filterMap shadowOf?,
       (l.filter fun e => e.visible.getD true).filterMap blurOf?) := by
  induction l with
  | nil => rfl
  | cons e rest ih =>
    simp only [parseEffectsGo, ih, List.filter_cons]
    by_cases h : e.visible.getD true = false
    · simp [h]
    · have h' : e.visible.getD true = true := by
        cases hv : e.visible.getD true
        · exact absurd hv h
        · rfl
      by_cases hs : e.type.getD "" = "DROP_SHADOW" ∨ e.type.getD "" = "INNER_SHADOW"
      · have hb : ¬(e.type.getD "" = "LAYER_BLUR" ∨ e.type.getD "" = "BACKGROUND_BLUR") := by
          rcases hs with h1 | h1 <;> simp [h1]
        simp [h', hs, hb, List.filterMap_cons, shadowOf?, blurOf?]
      · by_cases hb : e.type.getD "" = "LAYER_BLUR" ∨ e.type.getD "" = "BACKGROUND_BLUR"
        · simp [h', hs, hb, List.filterMap_cons, shadowOf?, blurOf?]
        · simp [h', hs, hb, List.filterMap_cons, shadowOf?, blurOf?]

/-- C8: fills, stroke layers, and effects whose `visible` flag is
explicitly false never appear in parser outputs — each output is the
filter of the visible entries, mapped to its layer/effect record — and,
concretely, of two fills with the second invisible only the first
survives. -/
theorem C8_invisible_dropped :
    (∀ node : FigmaNode,
      parse_fills node =
        ((node.fills.getD []).filter fun f => f.visible.getD true).map
          fun f => fillLayerOfPaint f true) ∧
    (∀ (node : FigmaNode) (l : FillLayer), l ∈ parse_fills node → l.visible = true) ∧
    (∀ (node : FigmaNode) (si : StrokeInfo), parse_stroke node = some si →
      si.colors =
        ((node.strokes.getD []).filter fun s => s.visible.getD true).map
          strokeLayerOfPaint) ∧
    (∀ node : FigmaNode,
      parse_effects node =
        (((node.effects.getD []).filter fun e => e.visible.getD true).filterMap shadowOf?,
         ((node.effects.getD []).filter fun e => e.visible.getD true).filterMap blurOf?)) ∧
    (∀ f1 f2 : FigmaPaint, f1.visible.getD true = true → f2.visible = some false →
      parse_fills { fills := some [f1, f2] } = [fillLayerOfPaint f1 true]) := by
  refine ⟨fun node => parseFillsGo_eq_filter_map _, fun node l hl => ?_,
    fun node si h => ?_, fun node => parseEffectsGo_eq_filter _, fun f1 f2 h1 h2 => ?_⟩
  · simp only [parse_fills] at hl
    rw [parseFillsGo_eq_filter_map] at hl
    obtain ⟨f, _, rfl⟩ := List.mem_map.mp hl
    exact fillLayerOfPaint_visible f true
  · simp only [parse_stroke] at h
    by_cases hw : node.strokes.getD [] = [] ∨ node.strokeWeight.getD 0 = 0
    · rw [if_pos hw] at h
      exact absurd h (by simp)
    · rw [if_neg hw] at h
      by_cases hc : strokeColorsGo (node.strokes.getD []) = []
      · rw [if_pos hc] at h
        exact absurd h (by simp)
      · rw [if_neg hc] at h
        simp only [Option.some.injEq] at h
        subst h
        exact strokeColorsGo_eq_filter_map _
  · simp only [parse_fills, Option.getD_some, parseFillsGo, h1, h2]
    simp

/-- C8 witness: a visible solid fill followed by an invisible one parses to
the single layer of the first. -/
theorem C8_invisible_dropped_witness :
    parse_fills { fills := some [{ type := some "SOLID" }, { type := some "SOLID", visible := some false }] } =
      [fillLayerOfPaint { type := some "SOLID" } true] :=
  C8_invisible_dropped.2.2.2.2 { type := some "SOLID" }
    { type := some "SOLID", visible := some false } rfl rfl

/-- The text-color scan never populates both components. -/
theorem textFillScan_at_most_one (l : List FigmaPaint) :
    (textFillScan l).1 = none ∨ (textFillScan l).2 = none := by
  induction l with
  | nil => exact Or.inl rfl
  | cons f rest ih =>
    simp only [textFillScan]
    split_ifs with h1 h2 h3
    · exact ih
    · exact Or.inr rfl
    · exact Or.inl rfl
    · exact ih

/-- The text-color scan is determined by the first fill satisfying
`textFillPred`: a SOLID one yields the color, a gradient one the gradient,
none at all yields neither. -/
theorem textFillScan_eq_find (l : List FigmaPaint) :
    textFillScan l =
      match l.find? textFillPred with
      | none => (none, none)
      | some f =>
        if f.type.getD "" = "SOLID" then
          (some (ColorValue.from_figma (f.color.getD {}) (f.opacity.getD 1)), none)
        else (none, some (gradientOfPaint (f.type.getD "") f)) := by
  induction l with
  | nil => rfl
  | cons f rest ih =>
    simp only [textFillScan, List.find?_cons]
    by_cases hv : f.visible.getD true = false
    · have hp : textFillPred f = false := by simp [textFillPred, hv]
      simp [hv, hp, ih]
    · have hv' : f.visible.getD true = true := by
        cases h : f.visible.getD true
        · exact absurd h hv
        · rfl
      by_cases hs : f.type.getD "" = "SOLID"
      · have hp : textFillPred f = true := by simp [textFillPred, hv', hs]
        simp [hv', hp, hs]
      · by_cases hg : hasSubstr "GRADIENT".data (f.type.getD "").data = true
        · have hp : textFillPred f = true := by simp [textFillPred, hv', hg]
          simp [hv', hp, hs, hg]
        · have hp : textFillPred f = false := by simp [textFillPred, hs, hg]
          simp [hv', hp, hs, hg, ih]

/-- C9: the text-style fill scan skips visible fills that are neither SOLID
nor gradient (e.g. IMAGE) and takes the first matching fill anywhere in the
list; a returned `TextStyle` never has both a color and a gradient. -/
theorem C9_parse_text_style_scan :
    (∀ node : FigmaNode,
      (parse_text_style node).color = none ∨ (parse_text_style node).gradient = none) ∧
    (∀ node : FigmaNode,
      ((parse_text_style node).color, (parse_text_style node).gradient) =
        match (node.fills.getD []).find? textFillPred with
        | none => (none, none)
        | some f =>
          if f.type.getD "" = "SOLID" then
            (some (ColorValue.from_figma (f.color.getD {}) (f.opacity.getD 1)), none)
          else (none, some (gradientOfPaint (f.type.getD "") f))) ∧
    (parse_text_style { fills := some [{ type := some "IMAGE", imageRef := some "img" }, { type := some "SOLID", color := some { r := some 1 } }] }).color =
      some { r := 1, g := 0, b := 0, a := 1 } := by
  refine ⟨fun node => ?_, fun node => ?_, ?_⟩
  · simpa only [parse_text_style] using textFillScan_at_most_one (node.fills.getD [])
  · simp only [parse_text_style]
    exact textFillScan_eq_find (node.fills.getD [])
  · decide

/-- C7: `angle_degrees` is `(90 − degrees(atan2(dy, dx))) mod 360` computed
from the first two handle positions — concretely 45.0 on handles
`[{x:0,y:0}, {x:1,y:1}]` — and defaults to 180.0 with fewer than two
handle positions. -/
theorem C7_angle_degrees :
    (GradientDef.angle_degrees
        { type := "LINEAR", stops := [],
          handle_positions := [{ x := some 0, y := some 0 }, { x := some 1, y := some 1 }] } =
      45) ∧
    (∀ g : GradientDef, g.handle_positions.length < 2 → g.angle_degrees = 180) ∧
    (∀ g : GradientDef, 2 ≤ g.handle_positions.length →
      g.angle_degrees =
        pyFloatMod
          (90 - pyAtan2
              (((g.handle_positions.getD 1 {}).y.getD 1 -
                (g.handle_positions.getD 0 {}).y.getD 0 : ℚ) : ℝ)
              (((g.handle_positions.getD 1 {}).x.getD 1 -
                (g.handle_positions.getD 0 {}).x.getD 0 : ℚ) : ℝ) * 180 / Real.pi)
          360) := by
  refine ⟨?_, fun g h => ?_, fun g h => ?_⟩
  · simp only [GradientDef.angle_degrees, List.length_cons, List.length_nil]
    rw [if_neg (by norm_num)]
    simp only [List.getD_cons_zero, List.getD_cons_succ, Option.getD_some]
    have hq : ((1 : ℚ) - 0 : ℚ) = 1 := by norm_num
    rw [hq]
    have hA : pyAtan2 ((1 : ℚ) : ℝ) ((1 : ℚ) : ℝ) = Real.pi / 4 := by
      push_cast
      simp [pyAtan2, Real.arctan_one]
    rw [hA]
    have hangle : Real.pi / 4 * 180 / Real.pi = 45 := by
      field_simp
      ring
    rw [hangle]
    have hfl : ⌊(90 - 45 : ℝ) / 360⌋ = 0 := by
      rw [Int.floor_eq_zero_iff]
      constructor <;> norm_num
    simp [pyFloatMod, hfl]
    norm_num
  · rw [GradientDef.angle_degrees, if_pos h]
  · rw [GradientDef.angle_degrees, if_neg (not_lt.mpr h)]

/-- C7 witness: the default-angle clause applied to a gradient with no
handle positions. -/
theorem C7_angle_degrees_witness :
    GradientDef.angle_degrees { type := "LINEAR", stops := [] } = 180 :=
  C7_angle_degrees.2.1 { type := "LINEAR", stops := [] } (by simp)

/-- Truncation is the identity on natural numbers. -/
theorem pyTrunc_natCast (n : ℕ) : pyTrunc (n : ℚ) = n := by
  simp [pyTrunc]

/-- The hex rendering of `n < 256` in two-digit form. -/
theorem natToHex_of_lt_256 (n : ℕ) (h : n < 256) :
    natToHex n =
      if n < 16 then [hexDigitChar n]
      else [hexDigitChar (n / 16), hexDigitChar (n % 16)] := by
  unfold natToHex
  by_cases h16 : n < 16
  · simp [natToHexAux, h16]
  · obtain ⟨m, rfl⟩ : ∃ m, n = m + 1 := ⟨n - 1, by omega⟩
    have hd : (m + 1) / 16 < 16 := by omega
    simp [natToHexAux, h16, hd]

/-- `%02x` of `n < 256` is exactly the two hex digit characters. -/
theorem pyFormatHex2_of_lt_256 (n : ℕ) (h : n < 256) :
    pyFormatHex2 (n : ℤ) = [hexDigitChar (n / 16), hexDigitChar (n % 16)] := by
  unfold pyFormatHex2
  rw [if_neg (by simp), Int.natAbs_ofNat, natToHex_of_lt_256 n h]
  by_cases h16 : n < 16
  · have h0 : hexDigitChar 0 = '0' := by decide
    simp [h16, padZeros, Nat.div_eq_of_lt h16, Nat.mod_eq_of_lt h16, h0]
  · simp [h16, padZeros]

/-- Hex digit characters decode to their values. -/
theorem hexDigitVal_hexDigitChar : ∀ n, n < 16 → hexDigitVal? (hexDigitChar n) = some n := by
  decide

/-- Hex digit characters are not whitespace. -/
theorem hexDigitChar_not_space : ∀ n, n < 16 → isPySpace (hexDigitChar n) = false := by
  decide

/-- Hex digit characters are not a sign character. -/
theorem hexDigitChar_ne_plus : ∀ n, n < 16 → ¬hexDigitChar n = '+' := by decide

/-- Hex digit characters are not a minus sign. -/
theorem hexDigitChar_ne_minus : ∀ n, n < 16 → ¬hexDigitChar n = '-' := by decide

/-- Hex digit characters differ from `'#'`. -/
theorem hexDigitChar_ne_hash : ∀ n, n < 16 → (hexDigitChar n == '#') = false := by decide

/-- `dropWhile` is the identity when no element satisfies the predicate. -/
theorem dropWhile_eq_self_of_forall {p : Char → Bool} {l : List Char}
    (h : ∀ c ∈ l, p c = false) : l.dropWhile p = l := by
  cases l with
  | nil => rfl
  | cons a t => simp [List.dropWhile_cons, h a (List.mem_cons_self a t)]

/-- Stripping is the identity on whitespace-free text. -/
theorem pyStrip_of_no_space (l : List Char) (h : ∀ c ∈ l, isPySpace c = false) :
    pyStrip l = l := by
  unfold pyStrip
  rw [dropWhile_eq_self_of_forall h,
    dropWhile_eq_self_of_forall fun c hc => h c (List.mem_reverse.mp hc),
    List.reverse_reverse]

/-- `int(_, 16)` decodes a two-hex-digit string. -/
theorem pyIntHex16_two (a b : ℕ) (ha : a < 16) (hb : b < 16) :
    pyIntHex16 [hexDigitChar a, hexDigitChar b] = some ((16 * a + b : ℕ) : ℤ) := by
  have hstrip : pyStrip [hexDigitChar a, hexDigitChar b] = [hexDigitChar a, hexDigitChar b] := by
    apply pyStrip_of_no_space
    intro c hc
    rcases List.mem_cons.mp hc with rfl | hc
    · exact hexDigitChar_not_space a ha
    · rcases List.mem_cons.mp hc with rfl | hc
      · exact hexDigitChar_not_space b hb
      · exact absurd hc (List.not_mem_nil c)
  simp only [pyIntHex16, pyIntOfDigits, hstrip, List.head?_cons, Option.some.injEq]
  rw [if_neg (hexDigitChar_ne_plus a ha), if_neg (hexDigitChar_ne_minus a ha)]
  simp only [hexDigitsVal?, List.foldl_cons, List.foldl_nil, Option.some_bind,
    hexDigitVal_hexDigitChar a ha, hexDigitVal_hexDigitChar b hb, Option.map_some,
    reduceIte, Option.bind_some]
  norm_num
  exact ⟨16 * a + b, ⟨by simp, rfl⟩, by push_cast; ring⟩

/-- Parsing an opaque `#`-prefixed six-hex-digit string recovers the three
channel values. -/
theorem hex_to_rgb_on_digits (u v w x y z : ℕ)
    (hu : u < 16) (hv : v < 16) (hw : w < 16) (hx : x < 16) (hy : y < 16) (hz : z < 16) :
    hex_to_rgb (String.mk ['#', hexDigitChar u, hexDigitChar v, hexDigitChar w,
        hexDigitChar x, hexDigitChar y, hexDigitChar z]) =
      some (((16 * u + v : ℕ) : ℤ), ((16 * w + x : ℕ) : ℤ), ((16 * y + z : ℕ) : ℤ)) := by
  have hstrip : pyStrip ['#', hexDigitChar u, hexDigitChar v, hexDigitChar w,
      hexDigitChar x, hexDigitChar y, hexDigitChar z] =
      ['#', hexDigitChar u, hexDigitChar v, hexDigitChar w,
        hexDigitChar x, hexDigitChar y, hexDigitChar z] := by
    apply pyStrip_of_no_space
    intro c hc
    simp only [List.mem_cons, List.not_mem_nil, or_false] at hc
    rcases hc with rfl | rfl | rfl | rfl | rfl | rfl | rfl
    · decide
    · exact hexDigitChar_not_space u hu
    · exact hexDigitChar_not_space v hv
    · exact hexDigitChar_not_space w hw
    · exact hexDigitChar_not_space x hx
    · exact hexDigitChar_not_space y hy
    · exact hexDigitChar_not_space z hz
  have hpre : List.isPrefixOf "rgba".data ['#', hexDigitChar u, hexDigitChar v, hexDigitChar w,
      hexDigitChar x, hexDigitChar y, hexDigitChar z] = false := by
    simp [List.isPrefixOf, show (('r' : Char) == '#') = false from by decide]
  have hdrop : List.dropWhile (fun c => c == '#') [hexDigitChar u, hexDigitChar v,
      hexDigitChar w, hexDigitChar x, hexDigitChar y, hexDigitChar z] =
      [hexDigitChar u, hexDigitChar v, hexDigitChar w,
        hexDigitChar x, hexDigitChar y, hexDigitChar z] := by
    apply dropWhile_eq_self_of_forall
    intro c hc
    simp only [List.mem_cons, List.not_mem_nil, or_false] at hc
    rcases hc with rfl | rfl | rfl | rfl | rfl | rfl
    · exact hexDigitChar_ne_hash u hu
    · exact hexDigitChar_ne_hash v hv
    · exact hexDigitChar_ne_hash w hw
    · exact hexDigitChar_ne_hash x hx
    · exact hexDigitChar_ne_hash y hy
    · exact hexDigitChar_ne_hash z hz
  simp only [hex_to_rgb, hstrip, hpre, Bool.false_eq_true, if_false, expandedHexPortion,
    List.dropWhile_cons, show (('#' : Char) == '#') = true from rfl, if_true, hdrop,
    List.length_cons, List.length_nil]
  norm_num
  rw [pyIntHex16_two u v hu hv, pyIntHex16_two w x hw hx, pyIntHex16_two y z hy hz]
  push_cast
  rfl

/-- C3: `hex_to_rgb` is a right inverse of the `ColorValue.hex` rendering
for fully opaque colors: the `#rrggbb` string of the color with channels
`r/255, g/255, b/255` parses back to exactly `(r, g, b)`. -/
theorem C3_hex_roundtrip (r g b : ℕ) (hr : r < 256) (hg : g < 256) (hb : b < 256) :
    hex_to_rgb (ColorValue.hex
        { r := (r : ℚ) / 255, g := (g : ℚ) / 255, b := (b : ℚ) / 255, a := 1 }) =
      some ((r : ℤ), (g : ℤ), (b : ℤ)) := by
  have hch : ∀ n : ℕ, pyTrunc ((n : ℚ) / 255 * 255) = (n : ℤ) := by
    intro n
    rw [div_mul_cancel₀ _ (by norm_num : (255 : ℚ) ≠ 0), pyTrunc_natCast]
  have hhex : ColorValue.hex
      { r := (r : ℚ) / 255, g := (g : ℚ) / 255, b := (b : ℚ) / 255, a := 1 } =
      String.mk ['#', hexDigitChar (r / 16), hexDigitChar (r % 16), hexDigitChar (g / 16),
        hexDigitChar (g % 16), hexDigitChar (b / 16), hexDigitChar (b % 16)] := by
    simp only [ColorValue.hex]
    rw [if_neg (by norm_num)]
    rw [hch r, hch g, hch b]
    rw [pyFormatHex2_of_lt_256 r hr, pyFormatHex2_of_lt_256 g hg, pyFormatHex2_of_lt_256 b hb]
    rfl
  rw [hhex, hex_to_rgb_on_digits _ _ _ _ _ _ (by omega) (by omega) (by omega)
    (by omega) (by omega) (by omega)]
  rw [Nat.div_add_mod, Nat.div_add_mod, Nat.div_add_mod]

/-- C3 witness: the round trip at the concrete triple `(255, 0, 0)`. -/
theorem C3_hex_roundtrip_witness :
    (255 : ℕ) < 256 ∧
    hex_to_rgb (ColorValue.hex
        { r := ((255 : ℕ) : ℚ) / 255, g := ((0 : ℕ) : ℚ) / 255,
          b := ((0 : ℕ) : ℚ) / 255, a := 1 }) =
      some (((255 : ℕ) : ℤ), ((0 : ℕ) : ℤ), ((0 : ℕ) : ℤ)) :=
  ⟨by decide, C3_hex_roundtrip 255 0 0 (by decide) (by decide) (by decide)⟩
